import Mathlib

/-!
# go-utils: NetFlow v5 processor and bytes dispatcher

A shallow embedding of `netflow5/processor/processor.go` and
`bytesdispatcher/dispatcher.go`.

* Sequential code (`FlowToFlowsHandler`, `bytesHandlerForNetFlow5Handler`,
  `worker.handleBytes`, `Processor.setDefaults`, `Processor.isCloseError`,
  `Processor.Start`) is embedded as functions that return how the call ended
  together with the list of calls it made, in order.
* The goroutines of the dispatcher (`worker.start`, `worker.stop`,
  `Dispatcher.dispatch`, `Dispatcher.Stop`, callers of `SubmitJob`) are embedded
  as a labelled transition system over an explicit state, one transition per
  channel operation or call.
-/

namespace GoUtils

/-! ## Common vocabulary -/

/-- A byte slice: the list of its bytes, the length of the list being the length of the slice. -/
abbrev Buffer := List Nat

/-- How a call ends: it returns, or it panics with a message. -/
inductive Outcome where
  | returned
  | panicked (msg : String)
  deriving DecidableEq, Repr

/-! ## Package netflow5 (its source is not part of the three files) -/

/-- The operations of package `netflow5` used by `bytesHandlerForNetFlow5Handler`:
the header view at the start of the buffer, `Header.Version()` and
`NetFlow5.FlowArray()`. Their code is not in the source files, so the handler is
embedded over any implementation of them. -/
structure NetFlow5 (Header Flow : Type) where
  /-- The view `&data.Header` over the memory that starts at `&buffer[0]`. -/
  header : Buffer → Header
  /-- The value of `header.Version()`. -/
  Version : Header → Nat
  /-- The value of `data.FlowArray()`. -/
  FlowArray : Buffer → List Flow

/-- Big-endian value of the two bytes at offset `off` (missing bytes read as 0). -/
def be16 (b : Buffer) (off : Nat) : Nat :=
  (b.getD off 0 % 256) * 256 + b.getD (off + 1) 0 % 256

/-- Modelled from the spec: the declared flow count of package `netflow5`, the
big-endian 16-bit field at offset 2 of the 24-byte header. -/
def wireCount (b : Buffer) : Nat := be16 b 2

/-- Modelled from the spec: the parser of package `netflow5`. The header is the
24-byte view at the start of the buffer, the version its big-endian 16-bit
field at offset 0, and the flow slice has length `count`, flow `i` being the
48-byte view at offset `24 + 48 * i`. The package is handed the address of the first
byte only, so nothing it computes depends on the received length. -/
def wire : NetFlow5 Buffer Buffer where
  header := fun b => b.take 24
  Version := fun h => be16 h 0
  FlowArray := fun b =>
    (List.range (wireCount b)).map (fun i => (b.drop (24 + 48 * i)).take 48)

/-! ## processor.go: handlers -/

/-- One call of `FlowHandler.HandleFlow(header, i, flow)`. -/
structure FlowCall (Header Flow : Type) where
  header : Header
  i : Nat
  flow : Flow
  deriving DecidableEq, Repr

/-- One call of `FlowsHandler.HandleFlows(header, flows)`. -/
structure FlowsCall (Header Flow : Type) where
  header : Header
  flows : List Flow
  deriving DecidableEq, Repr

/-- A user `FlowHandler`: how the call `HandleFlow(header, i, flow)` ends. -/
abbrev FlowHandler (Header Flow : Type) := Header → Nat → Flow → Outcome

/-- A user `FlowsHandler`: how the call `HandleFlows(header, flows)` ends. -/
abbrev FlowsHandler (Header Flow : Type) := Header → List Flow → Outcome

/-- The loop `for i, flow := range flows { h.HandleFlow(header, i, &flow) }`, entered at
index `i` with the flows that remain: how it ends and the calls of `h` it makes. A panic
of `h` leaves the loop at once. -/
def rangeFlows {Header Flow : Type} (h : FlowHandler Header Flow) (header : Header) :
    Nat → List Flow → Outcome × List (FlowCall Header Flow)
  | _, [] => (Outcome.returned, [])
  | i, flow :: rest =>
    match h header i flow with
    | Outcome.returned =>
      let r := rangeFlows h header (i + 1) rest
      (r.1, ⟨header, i, flow⟩ :: r.2)
    | Outcome.panicked msg => (Outcome.panicked msg, [⟨header, i, flow⟩])

/-- `FlowToFlowsHandler(h).HandleFlows(header, flows)`. -/
def FlowToFlowsHandler {Header Flow : Type} (h : FlowHandler Header Flow)
    (header : Header) (flows : List Flow) : Outcome × List (FlowCall Header Flow) :=
  rangeFlows h header 0 flows

/-- `bytesHandlerForNetFlow5Handler(h).HandleBytes(buffer)`: how the call ends and the
calls of `h.HandleFlows` it makes. Taking `&buffer[0]` panics on an empty slice. -/
def bytesHandlerForNetFlow5Handler {Header Flow : Type} (nf : NetFlow5 Header Flow)
    (h : FlowsHandler Header Flow) (buffer : Buffer) :
    Outcome × List (FlowsCall Header Flow) :=
  match buffer with
  | [] => (Outcome.panicked "index out of range [0] with length 0", [])
  | _ :: _ =>
    let header := nf.header buffer
    if nf.Version header = 5 then
      (h header (nf.FlowArray buffer), [⟨header, nf.FlowArray buffer⟩])
    else
      (Outcome.returned, [])

/-! ## dispatcher.go: `worker.handleBytes` -/

/-- The calls `worker.handleBytes` makes. -/
inductive PoolCall where
  | HandleBytes (bytes : Buffer)
  | Put (bytes : Buffer)
  deriving DecidableEq, Repr

/-- A statement of a function body: a plain call, or a `defer` of a call. A call is
given by the record it leaves and by how it ends. -/
inductive Stmt where
  | call (record : PoolCall) (ends : Outcome)
  | defer (record : PoolCall) (ends : Outcome)

/-- The deferred calls run when the function is left, last deferred first; a deferred
call that panics replaces the panic in flight. -/
def runDeferred : List (PoolCall × Outcome) → Outcome → Outcome × List PoolCall
  | [], out => (out, [])
  | (record, ends) :: rest, out =>
    let out1 := match ends with
      | Outcome.returned => out
      | Outcome.panicked msg => Outcome.panicked msg
    let r := runDeferred rest out1
    (r.1, record :: r.2)

/-- Run a function body: statements in order until one panics, then the deferred calls
registered so far. `deferred` is the stack of deferred calls, newest first. -/
def runBody : List Stmt → List (PoolCall × Outcome) → Outcome × List PoolCall
  | [], deferred => runDeferred deferred Outcome.returned
  | Stmt.defer record ends :: rest, deferred => runBody rest ((record, ends) :: deferred)
  | Stmt.call record Outcome.returned :: rest, deferred =>
    let r := runBody rest deferred
    (r.1, record :: r.2)
  | Stmt.call record (Outcome.panicked msg) :: _, deferred =>
    let r := runDeferred deferred (Outcome.panicked msg)
    (r.1, record :: r.2)

/-- `worker.handleBytes(bytes)`, whose body is
`defer w.byteArrayPool.Put(bytes); w.bytesHandler.HandleBytes(bytes)`.
`H` tells how the byte handler ends on a buffer, `put` how `Put` ends. -/
def handleBytes (H : Buffer → Outcome) (put : Buffer → Outcome) (bytes : Buffer) :
    Outcome × List PoolCall :=
  runBody [Stmt.defer (PoolCall.Put bytes) (put bytes),
           Stmt.call (PoolCall.HandleBytes bytes) (H bytes)] []

/-! ## processor.go: the processor -/

/-- A packet connection, named by the address it listens on. -/
structure Conn where
  address : String
  deriving DecidableEq, Repr

/-- The pool built by `bytearraypool.NewByteArrayPool(size, byteSize)`. -/
structure ByteArrayPool where
  size : Int
  byteSize : Int
  deriving DecidableEq, Repr

/-- A channel made by `make(chan struct{}, capacity)`. -/
structure StopChan where
  capacity : Nat
  deriving DecidableEq, Repr

/-- The value built by `bytesdispatcher.NewDispatcher(maxWorkers, jobQueueSize, handler, pool)`;
`flows` is the user handler wrapped by `bytesHandlerForNetFlow5Handler`. -/
structure DispatcherRef (H : Type) where
  maxWorkers : Int
  jobQueueSize : Int
  flows : H
  byteArrayPool : ByteArrayPool

/-- The struct `Processor`; `none` stands for a nil field, `H` is the type of user handlers. -/
structure Processor (H : Type) where
  Conn : Option Conn
  Handler : Option H
  Workers : Int
  Backlog : Int
  PacketSize : Int
  ByteArrayPoolSize : Int
  byteArrayPool : Option ByteArrayPool
  stopChan : Option StopChan
  dispatcher : Option (DispatcherRef H)

/-- What the runtime and the network answer during `setDefaults`. -/
structure Env where
  /-- The value of `runtime.GOMAXPROCS(0)`. -/
  GOMAXPROCS : Int
  /-- The answer of `net.ListenPacket("udp", "127.0.0.1:2055")`: a connection or an error text. -/
  ListenPacket : Except String Conn

/-- The calls `Processor.Start` makes on its collaborators, as they happen. -/
inductive Effect where
  | NewByteArrayPool (size byteSize : Int)
  | ListenPacket (network address : String)
  | makeStopChan
  | NewDispatcher (maxWorkers jobQueueSize : Int)
  /-- The call `dispatcher.Run()`, which starts `workers` workers and the dispatch loop. -/
  | Run (workers : Int)
  | Get
  | ReadFrom
  | SubmitJob (job : Buffer)
  /-- The call `dispatcher.Stop()`. -/
  | Stop
  deriving DecidableEq, Repr

/-- How `Start` (or a part of it) stops running. -/
inductive Exit where
  | returned
  | panicked (msg : String)
  /-- Blocked in `ReadFrom`: no further datagram or error arrives. -/
  | blockedInRead
  deriving DecidableEq, Repr

/-- The processor after a run of code, how the code ended, and the calls it made. -/
structure Ran (H : Type) where
  proc : Processor H
  ended : Exit
  effects : List Effect

/-- The second half of `setDefaults`, from `if p.Conn == nil` on; `effects` are the
calls made so far. -/
def setDefaultsConn {H : Type} (env : Env) (h : H) (p : Processor H)
    (pool : ByteArrayPool) (effects : List Effect) : Ran H :=
  let listened : Except String (Processor H × List Effect) :=
    match p.Conn with
    | some _ => Except.ok (p, effects)
    | none =>
      match env.ListenPacket with
      | Except.error err => Except.error err
      | Except.ok conn =>
        Except.ok ({ p with Conn := some conn },
          effects ++ [Effect.ListenPacket "udp" "127.0.0.1:2055"])
  match listened with
  | Except.error err =>
    ⟨p, Exit.panicked err, effects ++ [Effect.ListenPacket "udp" "127.0.0.1:2055"]⟩
  | Except.ok (p, effects) =>
    let made : Processor H × List Effect :=
      match p.stopChan with
      | some _ => (p, effects)
      | none => ({ p with stopChan := some ⟨1⟩ }, effects ++ [Effect.makeStopChan])
    let p := made.1
    let effects := made.2
    ⟨{ p with dispatcher := some ⟨p.Workers, p.Backlog, h, pool⟩ }, Exit.returned,
      effects ++ [Effect.NewDispatcher p.Workers p.Backlog]⟩

/-- `Processor.setDefaults`. -/
def setDefaults {H : Type} (env : Env) (p : Processor H) : Ran H :=
  match p.Handler with
  | none => ⟨p, Exit.panicked "No handler defined", []⟩
  | some h =>
    let p := if p.Workers ≤ 0 then { p with Workers := env.GOMAXPROCS } else p
    let p := if p.PacketSize ≤ 0 then { p with PacketSize := 2048 } else p
    let p := if p.Backlog ≤ 0 then { p with Backlog := 100 } else p
    let p := if p.ByteArrayPoolSize ≤ 0 then { p with ByteArrayPoolSize := p.Backlog } else p
    let pool : ByteArrayPool := ⟨p.ByteArrayPoolSize, p.PacketSize⟩
    let p := { p with byteArrayPool := some pool }
    setDefaultsConn env h p pool [Effect.NewByteArrayPool p.ByteArrayPoolSize p.PacketSize]

/-- `strings.Contains(s, substr)`. -/
def stringsContains (s substr : String) : Bool :=
  decide (substr.data <:+: s.data)

/-- `Processor.isCloseError(err)`, `err` being the text of the error. -/
def isCloseError {H : Type} (p : Processor H) (err : String) : Bool :=
  if p.stopChan ≠ none then
    false
  else
    stringsContains err "use of closed network connection"

/-- What `p.Conn.ReadFrom(buffer)` answers. -/
inductive ReadResult where
  /-- A datagram with this payload was received. -/
  | datagram (payload : List Nat)
  /-- The read failed with an error of this text. -/
  | error (text : String)
  deriving DecidableEq, Repr

/-- `ReadFrom` copies the payload to the start of the buffer and answers the number of
bytes copied; a payload longer than the buffer is cut, the rest of the buffer keeps
its bytes. -/
def readInto (buffer : Buffer) (payload : List Nat) : Nat × Buffer :=
  (min payload.length buffer.length,
   payload.take buffer.length ++ buffer.drop payload.length)

/-- What the surroundings do during one iteration of the receive loop. -/
structure Iteration where
  /-- The buffer `p.byteArrayPool.Get()` yields. -/
  buffer : Buffer
  /-- Whether `Processor.Stop` has run `p.stopChan = nil` when `ReadFrom` answers. -/
  stopRequested : Bool
  /-- The answer of `ReadFrom`. -/
  read : ReadResult
  /-- Whether the stop signal sits in `stopChan` when the loop polls it. -/
  signalled : Bool
  deriving DecidableEq, Repr

/-- The loop `LOOP: for { ... }` of `Processor.Start`, one element of the list per
iteration. `Exit.returned` means the loop was left by `break`. -/
def receiveLoop {H : Type} (p : Processor H) : List Iteration → Ran H
  | [] => ⟨p, Exit.blockedInRead, [Effect.Get, Effect.ReadFrom]⟩
  | it :: rest =>
    let p := if it.stopRequested then { p with stopChan := none } else p
    match it.read with
    | ReadResult.error text =>
      if isCloseError p text then
        ⟨p, Exit.returned, [Effect.Get, Effect.ReadFrom]⟩
      else
        ⟨p, Exit.panicked text, [Effect.Get, Effect.ReadFrom]⟩
    | ReadResult.datagram payload =>
      let buffer := (readInto it.buffer payload).2
      if it.signalled then
        ⟨p, Exit.returned, [Effect.Get, Effect.ReadFrom, Effect.SubmitJob buffer]⟩
      else
        let r := receiveLoop p rest
        ⟨r.proc, r.ended, [Effect.Get, Effect.ReadFrom, Effect.SubmitJob buffer] ++ r.effects⟩

/-- The receive loop followed by `dispatcher.Stop()`, which is reached only when the
loop is left by `break`. -/
def receiveThenStop {H : Type} (p : Processor H) (script : List Iteration) : Ran H :=
  let r := receiveLoop p script
  match r.ended with
  | Exit.returned => ⟨r.proc, Exit.returned, r.effects ++ [Effect.Stop]⟩
  | _ => r

/-- `Processor.Start`. -/
def Start {H : Type} (env : Env) (p : Processor H) (script : List Iteration) : Ran H :=
  let d := setDefaults env p
  match d.ended with
  | Exit.returned =>
    let r := receiveThenStop d.proc script
    ⟨r.proc, r.ended, d.effects ++ [Effect.Run d.proc.Workers] ++ r.effects⟩
  | _ => d

/-- The buffers given to `dispatcher.SubmitJob`, in order. -/
def submittedJobs (effects : List Effect) : List Buffer :=
  effects.filterMap (fun e => match e with
    | Effect.SubmitJob job => some job
    | _ => none)

/-! ## dispatcher.go: the goroutines as a transition system -/

/-- Where a worker goroutine (the function literal of `worker.start`) stands. -/
inductive WorkerPc where
  /-- At `w.workerPool <- w.jobChannel`. -/
  | register
  /-- At the `select` inside `LOOP`. -/
  | select
  /-- In `handleBytes(job)` before `HandleBytes`; `last` tells that the job was
  received by the `select` after the loop. -/
  | handle (job : Buffer) (last : Bool)
  /-- In `handleBytes(job)` after `HandleBytes` returned, before the deferred `Put`. -/
  | put (job : Buffer) (last : Bool)
  /-- After `break LOOP`, at the `select` with a `default` case. -/
  | leftover
  /-- The function literal has returned; the deferred `waitGroup.Done()` is due. -/
  | exiting
  /-- The goroutine has ended. -/
  | done
  deriving DecidableEq, Repr

/-- A worker: where its goroutine stands, and how many goroutines started by
`worker.stop` are sending on its `stopChannel`. -/
structure worker where
  pc : WorkerPc
  stopSenders : Nat
  deriving DecidableEq, Repr

/-- Where the goroutine of `Dispatcher.dispatch` stands; workers are named by their
index in `d.workers`, which also names their `jobChannel`. -/
inductive DispatchPc where
  /-- `Run` has not been called. -/
  | idle
  /-- At `jobChannel := <-workerPool`. -/
  | findWorker
  /-- At `job := <-jobQueue`, holding the channel of worker `w`. -/
  | getJob (w : Nat)
  /-- At `jobChannel <- job`. -/
  | send (w : Nat) (job : Buffer)
  deriving DecidableEq, Repr

/-- Where the caller of `Dispatcher.Stop` stands. -/
inductive StopPc where
  | notCalled
  /-- In `for i := range d.workers`, before `d.workers[i].stop()`; `n` is the length
  of `d.workers` when the loop was entered. -/
  | stopping (i n : Nat)
  /-- In `d.Wait()`. -/
  | waiting
  | returned
  deriving DecidableEq, Repr

/-- The struct `Dispatcher` together with where its goroutines stand. The channels are
given by the content of their buffers; the unbuffered channels `jobChannel` and
`stopChannel` of a worker have no content, a send on them is one step with the receive.
The last five fields are history: they record what has happened and steer nothing. -/
structure Dispatcher where
  maxWorkers : Nat
  /-- The capacity of `jobQueue`. -/
  jobQueueSize : Nat
  /-- The buffer of the channel `jobQueue`, oldest first. -/
  jobQueue : List Buffer
  /-- The buffer of the channel `workerPool` (capacity `maxWorkers`), oldest first. -/
  workerPool : List Nat
  workers : List worker
  /-- The counter of `waitGroup`. -/
  waitGroup : Nat
  dispatchPc : DispatchPc
  stopPc : StopPc
  /-- The jobs of the `SubmitJob` calls that have returned, in order. -/
  submitted : List Buffer
  /-- The jobs the dispatch loop has sent on worker channels, in order. -/
  dispatched : List Buffer
  /-- The buffers `HandleBytes` has been called on, in order. -/
  handled : List Buffer
  /-- The buffers given to `Put`, in order. -/
  returned : List Buffer
  /-- The value of `submitted` when `Stop` was called. -/
  submittedAtStop : List Buffer
  deriving DecidableEq, Repr

/-- `NewDispatcher(maxWorkers, jobQueueSize, bytesHandler, byteArrayPool)`: both channels
are empty, there is no worker and no goroutine. -/
def NewDispatcher (maxWorkers jobQueueSize : Nat) : Dispatcher where
  maxWorkers := maxWorkers
  jobQueueSize := jobQueueSize
  jobQueue := []
  workerPool := []
  workers := []
  waitGroup := 0
  dispatchPc := DispatchPc.idle
  stopPc := StopPc.notCalled
  submitted := []
  dispatched := []
  handled := []
  returned := []
  submittedAtStop := []

/-- The steps of the goroutines. -/
inductive Action where
  /-- `Run()`, called once: make `maxWorkers` workers, add them to the wait group, start
  their goroutines and the dispatch loop. Each goroutine starts at its first statement. -/
  | Run
  /-- `SubmitJob(job)` puts the job in the buffer of `jobQueue`. -/
  | SubmitJob (job : Buffer)
  /-- `SubmitJob(job)` hands the job to the dispatch loop, which waits at
  `<-jobQueue` with the buffer empty (the only way through when the capacity is 0). -/
  | SubmitJobDirect (job : Buffer)
  /-- Worker `w` sends its channel on `workerPool`. -/
  | register (w : Nat)
  /-- The dispatch loop receives a worker channel. -/
  | findWorker
  /-- The dispatch loop receives a job from the buffer of `jobQueue`. -/
  | getJob
  /-- The dispatch loop sends the job and the worker it holds receives it, in either
  of the worker's two `select` statements. -/
  | deliver
  /-- Worker `w` calls `HandleBytes`, which returns (what `handleBytes` does when the
  handler panics is the subject of `runBody`). -/
  | HandleBytes (w : Nat)
  /-- Worker `w` runs the deferred `Put`. -/
  | Put (w : Nat)
  /-- `Stop()` is called. -/
  | Stop
  /-- `Stop` calls `d.workers[i].stop()`, which starts a goroutine that sends on the
  stop channel of worker `i`. -/
  | stopWorker
  /-- `Stop` leaves its loop and calls `Wait`. -/
  | Wait
  /-- `Wait` returns, and with it `Stop`. -/
  | stopReturns
  /-- Worker `w` receives from its `stopChannel` in the `select` of the loop. -/
  | stopSignal (w : Nat)
  /-- Worker `w` takes the `default` case of the `select` after the loop: no sender is
  parked on its `jobChannel`. The dispatch loop may stand at its send without being
  parked yet, so the step is possible wherever the dispatch loop stands. -/
  | leftoverDefault (w : Nat)
  /-- Worker `w` runs the deferred `waitGroup.Done()`. -/
  | Done (w : Nat)
  deriving DecidableEq, Repr

/-- Replace the worker of index `w`. -/
def Dispatcher.setWorker (s : Dispatcher) (w : Nat) (wk : worker) : Dispatcher :=
  { s with workers := s.workers.set w wk }

/-- One step: the state after the action, or `none` when the action cannot happen in `s`
(the goroutine is elsewhere, or the channel operation would block). A `select` with
several ready cases is free to take any of them: each is a step of its own. -/
def step (s : Dispatcher) : Action → Option Dispatcher
  | Action.Run =>
    match s.dispatchPc with
    | DispatchPc.idle =>
      some { s with
        workers := List.replicate s.maxWorkers ⟨WorkerPc.register, 0⟩
        waitGroup := s.waitGroup + s.maxWorkers
        dispatchPc := DispatchPc.findWorker }
    | _ => none
  | Action.SubmitJob job =>
    if s.jobQueue.length < s.jobQueueSize then
      some { s with jobQueue := s.jobQueue ++ [job], submitted := s.submitted ++ [job] }
    else none
  | Action.SubmitJobDirect job =>
    match s.dispatchPc, s.jobQueue with
    | DispatchPc.getJob w, [] =>
      some { s with dispatchPc := DispatchPc.send w job, submitted := s.submitted ++ [job] }
    | _, _ => none
  | Action.register w =>
    match s.workers[w]? with
    | some ⟨WorkerPc.register, n⟩ =>
      if s.workerPool.length < s.maxWorkers then
        some { s.setWorker w ⟨WorkerPc.select, n⟩ with workerPool := s.workerPool ++ [w] }
      else none
    | _ => none
  | Action.findWorker =>
    match s.dispatchPc, s.workerPool with
    | DispatchPc.findWorker, w :: rest =>
      some { s with dispatchPc := DispatchPc.getJob w, workerPool := rest }
    | _, _ => none
  | Action.getJob =>
    match s.dispatchPc, s.jobQueue with
    | DispatchPc.getJob w, job :: rest =>
      some { s with dispatchPc := DispatchPc.send w job, jobQueue := rest }
    | _, _ => none
  | Action.deliver =>
    match s.dispatchPc with
    | DispatchPc.send w job =>
      match s.workers[w]? with
      | some ⟨WorkerPc.select, n⟩ =>
        some { s.setWorker w ⟨WorkerPc.handle job false, n⟩ with
          dispatchPc := DispatchPc.findWorker, dispatched := s.dispatched ++ [job] }
      | some ⟨WorkerPc.leftover, n⟩ =>
        some { s.setWorker w ⟨WorkerPc.handle job true, n⟩ with
          dispatchPc := DispatchPc.findWorker, dispatched := s.dispatched ++ [job] }
      | _ => none
    | _ => none
  | Action.HandleBytes w =>
    match s.workers[w]? with
    | some ⟨WorkerPc.handle job last, n⟩ =>
      some { s.setWorker w ⟨WorkerPc.put job last, n⟩ with handled := s.handled ++ [job] }
    | _ => none
  | Action.Put w =>
    match s.workers[w]? with
    | some ⟨WorkerPc.put job last, n⟩ =>
      some { s.setWorker w ⟨if last then WorkerPc.exiting else WorkerPc.register, n⟩ with
        returned := s.returned ++ [job] }
    | _ => none
  | Action.Stop =>
    match s.stopPc with
    | StopPc.notCalled =>
      some { s with stopPc := StopPc.stopping 0 s.workers.length, submittedAtStop := s.submitted }
    | _ => none
  | Action.stopWorker =>
    match s.stopPc with
    | StopPc.stopping i n =>
      if i < n then
        match s.workers[i]? with
        | some wk =>
          some { s.setWorker i { wk with stopSenders := wk.stopSenders + 1 } with
            stopPc := StopPc.stopping (i + 1) n }
        | none => none
      else none
    | _ => none
  | Action.Wait =>
    match s.stopPc with
    | StopPc.stopping i n => if i < n then none else some { s with stopPc := StopPc.waiting }
    | _ => none
  | Action.stopReturns =>
    match s.stopPc with
    | StopPc.waiting => if s.waitGroup = 0 then some { s with stopPc := StopPc.returned } else none
    | _ => none
  | Action.stopSignal w =>
    match s.workers[w]? with
    | some ⟨WorkerPc.select, n + 1⟩ => some (s.setWorker w ⟨WorkerPc.leftover, n⟩)
    | _ => none
  | Action.leftoverDefault w =>
    match s.workers[w]? with
    | some ⟨WorkerPc.leftover, n⟩ => some (s.setWorker w ⟨WorkerPc.exiting, n⟩)
    | _ => none
  | Action.Done w =>
    match s.workers[w]? with
    | some ⟨WorkerPc.exiting, n⟩ =>
      some { s.setWorker w ⟨WorkerPc.done, n⟩ with waitGroup := s.waitGroup - 1 }
    | _ => none

/-- Run a list of actions from `s`; `none` when one of them cannot happen. -/
def execute (s : Dispatcher) : List Action → Option Dispatcher
  | [] => some s
  | a :: rest =>
    match step s a with
    | some s1 => execute s1 rest
    | none => none

/-- The states a dispatcher made by `NewDispatcher(W, B, ...)` can reach. -/
inductive Reachable (W B : Nat) : Dispatcher → Prop where
  | init : Reachable W B (NewDispatcher W B)
  | step {s s1 : Dispatcher} (a : Action) : Reachable W B s → step s a = some s1 → Reachable W B s1

/-- Whether the dispatch loop holds the channel of worker `w`, received from `workerPool`
and not yet served with a job. -/
def holds (pc : DispatchPc) (w : Nat) : Bool :=
  match pc with
  | DispatchPc.getJob v => decide (v = w)
  | DispatchPc.send v _ => decide (v = w)
  | _ => false

/-- The advertisements of worker `w` that are outstanding: those in the buffer of
`workerPool` plus the one the dispatch loop holds. -/
def adverts (s : Dispatcher) (w : Nat) : Nat :=
  s.workerPool.count w + (if holds s.dispatchPc w then 1 else 0)

/-- The job the dispatch loop has taken from the queue and not yet sent. -/
def inFlight (pc : DispatchPc) : List Buffer :=
  match pc with
  | DispatchPc.send _ job => [job]
  | _ => []

/-- The job a worker has received and not yet given to `HandleBytes`. -/
def inHand (wk : worker) : List Buffer :=
  match wk.pc with
  | WorkerPc.handle job _ => [job]
  | _ => []

/-- The most advertisements a worker can have outstanding where its goroutine stands:
none before it registers and while it handles a job of the loop, one otherwise. -/
def allowance : WorkerPc → Nat
  | WorkerPc.register => 0
  | WorkerPc.handle _ false => 0
  | WorkerPc.put _ false => 0
  | _ => 1

/-- The shape of a reachable state: the capacity is the one given to `NewDispatcher`,
there are no workers before `Run` and `W` after it, and every worker channel in the
registry or held by the dispatch loop is the channel of a worker. -/
structure Shape (W : Nat) (s : Dispatcher) : Prop where
  cap : s.maxWorkers = W
  len : s.workers.length = if s.dispatchPc = DispatchPc.idle then 0 else W
  poolLt : ∀ w ∈ s.workerPool, w < s.workers.length
  holdsLt : ∀ w, holds s.dispatchPc w = true → w < s.workers.length

/-- No worker has more advertisements outstanding than its place in the code allows. -/
def Advertised (s : Dispatcher) : Prop :=
  ∀ w wk, s.workers[w]? = some wk → adverts s w ≤ allowance wk.pc

/-- The jobs sent to workers, the job in flight and the queue make up the submitted jobs. -/
def Fifo (s : Dispatcher) : Prop :=
  s.dispatched ++ inFlight s.dispatchPc ++ s.jobQueue = s.submitted

/-- With at most one worker, the jobs handled and the job in the worker's hand make up
the jobs sent to workers. -/
def Serial (s : Dispatcher) : Prop :=
  s.handled ++ (s.workers.map inHand).flatten = s.dispatched

/-! ## Concrete inputs used by the examples -/

/-- The specification's clean-stop scenario with one worker and a queue of ten: ten jobs
are submitted, `Stop` is called at once, and the worker takes the stop signal before the
dispatch loop has forwarded a job. -/
def stopAtOnce : List Action :=
  [Action.Run, Action.register 0] ++
  (List.range 10).map (fun i => Action.SubmitJob [i + 1]) ++
  [Action.Stop, Action.stopWorker, Action.Wait, Action.stopSignal 0,
   Action.leftoverDefault 0, Action.Done 0, Action.stopReturns]

/-- The same scenario with the dispatch loop one step further: it has paired the first
job with the worker, which leaves through `default` before the job is sent. -/
def stopAfterPairing : List Action :=
  [Action.Run, Action.register 0] ++
  (List.range 10).map (fun i => Action.SubmitJob [i + 1]) ++
  [Action.findWorker, Action.getJob,
   Action.Stop, Action.stopWorker, Action.Wait, Action.stopSignal 0,
   Action.leftoverDefault 0, Action.Done 0, Action.stopReturns]

/-- The state both stop scenarios end in, but for where the dispatch loop stands and
what is left in the queue. -/
def stoppedEarly (pc : DispatchPc) (workerPool : List Nat) (queue : List Buffer) : Dispatcher where
  maxWorkers := 1
  jobQueueSize := 10
  jobQueue := queue
  workerPool := workerPool
  workers := [⟨WorkerPc.done, 0⟩]
  waitGroup := 0
  dispatchPc := pc
  stopPc := StopPc.returned
  submitted := [[1], [2], [3], [4], [5], [6], [7], [8], [9], [10]]
  dispatched := []
  handled := []
  returned := []
  submittedAtStop := [[1], [2], [3], [4], [5], [6], [7], [8], [9], [10]]

/-- The specification's FIFO scenario: one worker, a queue of eight, buffers whose first
bytes are 1, 2, 3, 4 submitted in order and handled one after the other. -/
def fifoScenario : List Action :=
  [Action.Run, Action.SubmitJob [1], Action.SubmitJob [2], Action.SubmitJob [3],
   Action.SubmitJob [4]] ++
  (List.replicate 4 [Action.register 0, Action.findWorker, Action.getJob, Action.deliver,
    Action.HandleBytes 0, Action.Put 0]).flatten

/-- The state the FIFO scenario ends in. -/
def fifoEnd : Dispatcher where
  maxWorkers := 1
  jobQueueSize := 8
  jobQueue := []
  workerPool := []
  workers := [⟨WorkerPc.register, 0⟩]
  waitGroup := 1
  dispatchPc := DispatchPc.findWorker
  stopPc := StopPc.notCalled
  submitted := [[1], [2], [3], [4]]
  dispatched := [[1], [2], [3], [4]]
  handled := [[1], [2], [3], [4]]
  returned := [[1], [2], [3], [4]]
  submittedAtStop := []

/-- Two workers, both registered, the dispatch loop not yet served. -/
def bothRegistered : Dispatcher where
  maxWorkers := 2
  jobQueueSize := 0
  jobQueue := []
  workerPool := [1, 0]
  workers := [⟨WorkerPc.select, 0⟩, ⟨WorkerPc.select, 0⟩]
  waitGroup := 2
  dispatchPc := DispatchPc.findWorker
  stopPc := StopPc.notCalled
  submitted := []
  dispatched := []
  handled := []
  returned := []
  submittedAtStop := []

/-- A 24-byte NetFlow v9 header: version 9, count 0. -/
def v9Header : Buffer := [0, 9] ++ List.replicate 22 0

/-- A 24-byte datagram: a NetFlow v5 header that declares one flow, with the flow
record cut off. -/
def truncatedDatagram : Buffer := [0, 5, 0, 1] ++ List.replicate 20 0

/-- A pool buffer of 72 bytes whose last bytes are left from an earlier use. -/
def staleBuffer : Buffer := List.replicate 24 0 ++ List.replicate 48 7

/-- A flows handler that returns. -/
def quietFlows : FlowsHandler Buffer Buffer := fun _ _ => Outcome.returned

/-- A per-flow handler that panics on the flow of index 1 and returns otherwise. -/
def panicsAtOne : FlowHandler Nat Nat := fun _ i _ =>
  if i = 1 then Outcome.panicked "boom" else Outcome.returned

/-- A per-flow handler that returns. -/
def quietFlow : FlowHandler Nat Nat := fun _ _ _ => Outcome.returned

/-- A processor with a handler and no option set. -/
def bareProcessor : Processor Unit where
  Conn := none
  Handler := some ()
  Workers := 0
  Backlog := 0
  PacketSize := 0
  ByteArrayPoolSize := 0
  byteArrayPool := none
  stopChan := none
  dispatcher := none

/-- A processor after `setDefaults`: the stop channel exists. -/
def readyProcessor : Processor Unit where
  Conn := some ⟨"127.0.0.1:2055"⟩
  Handler := some ()
  Workers := 4
  Backlog := 100
  PacketSize := 2048
  ByteArrayPoolSize := 100
  byteArrayPool := some ⟨100, 2048⟩
  stopChan := some ⟨1⟩
  dispatcher := some ⟨4, 100, (), ⟨100, 2048⟩⟩

/-- A processor without a handler. -/
def noHandler : Processor Unit := { bareProcessor with Handler := none, Backlog := 7 }

/-- A runtime with 8 processors whose network answers with a listener. -/
def demoEnv : Env where
  GOMAXPROCS := 8
  ListenPacket := Except.ok ⟨"127.0.0.1:2055"⟩

/-! ## Theorems: handlers -/

theorem rangeFlows_returns {Header Flow : Type} (h : FlowHandler Header Flow) (header : Header)
    (flows : List Flow) :
    ∀ i : Nat, (∀ k flow, flows[k]? = some flow → h header (i + k) flow = Outcome.returned) →
      (rangeFlows h header i flows).1 = Outcome.returned ∧
      (rangeFlows h header i flows).2.length = flows.length ∧
      ∀ (k : Nat) (flow : Flow), flows[k]? = some flow →
        (rangeFlows h header i flows).2[k]? = some (FlowCall.mk header (i + k) flow) := by
  induction flows with
  | nil => intro i _; simp [rangeFlows]
  | cons flow rest ih =>
    intro i hret
    have h0 : h header i flow = Outcome.returned := by
      have := hret 0 flow (by simp)
      simpa using this
    have hrest : ∀ k f, rest[k]? = some f → h header (i + 1 + k) f = Outcome.returned := by
      intro k f hk
      have := hret (k + 1) f (by simpa using hk)
      simpa [Nat.add_assoc, Nat.add_comm 1 k] using this
    obtain ⟨h1, h2, h3⟩ := ih (i + 1) hrest
    simp only [rangeFlows, h0]
    refine ⟨h1, by simp [h2], ?_⟩
    intro k f hk
    cases k with
    | zero => simp at hk; simp [hk]
    | succ k =>
      have hk1 : rest[k]? = some f := by simpa using hk
      have := h3 k f hk1
      simpa [Nat.add_assoc, Nat.add_comm 1 k] using this

theorem rangeFlows_positions {Header Flow : Type} (h : FlowHandler Header Flow)
    (header : Header) (flows : List Flow) :
    ∀ (i k : Nat) (c : FlowCall Header Flow), (rangeFlows h header i flows).2[k]? = some c →
      ∃ flow, flows[k]? = some flow ∧ c = FlowCall.mk header (i + k) flow := by
  induction flows with
  | nil => intro i k c hc; simp [rangeFlows] at hc
  | cons a rest ih =>
    intro i k c hc
    cases ha : h header i a with
    | returned =>
      simp only [rangeFlows, ha] at hc
      cases k with
      | zero =>
        simp at hc
        exact ⟨a, by simp, by simp [hc]⟩
      | succ k =>
        have hc1 : (rangeFlows h header (i + 1) rest).2[k]? = some c := by simpa using hc
        obtain ⟨flow, hf, hcf⟩ := ih (i + 1) k c hc1
        refine ⟨flow, by simpa using hf, ?_⟩
        rw [hcf]
        simp [Nat.add_assoc, Nat.add_comm 1 k]
    | panicked msg =>
      simp only [rangeFlows, ha] at hc
      cases k with
      | zero =>
        simp at hc
        exact ⟨a, by simp, by simp [hc]⟩
      | succ k => simp at hc

theorem rangeFlows_panics {Header Flow : Type} (h : FlowHandler Header Flow)
    (header : Header) (flows : List Flow) :
    ∀ (i k : Nat) (flow : Flow) (msg : String), flows[k]? = some flow →
      h header (i + k) flow = Outcome.panicked msg →
      (∀ (j : Nat) (f : Flow), j < k → flows[j]? = some f →
        h header (i + j) f = Outcome.returned) →
      (rangeFlows h header i flows).1 = Outcome.panicked msg ∧
      (rangeFlows h header i flows).2.length = k + 1 := by
  induction flows with
  | nil => intro i k flow msg hk; simp at hk
  | cons a rest ih =>
    intro i k flow msg hk hp hprev
    cases k with
    | zero =>
      have hfa : a = flow := by simpa using hk
      have ha : h header i a = Outcome.panicked msg := by rw [hfa]; simpa using hp
      simp [rangeFlows, ha]
    | succ k =>
      have ha : h header i a = Outcome.returned := by
        have := hprev 0 a (Nat.succ_pos k) (by simp)
        simpa using this
      have hk1 : rest[k]? = some flow := by simpa using hk
      have hp1 : h header (i + 1 + k) flow = Outcome.panicked msg := by
        simpa [Nat.add_assoc, Nat.add_comm 1 k] using hp
      have hprev1 : ∀ (j : Nat) (f : Flow), j < k → rest[j]? = some f →
          h header (i + 1 + j) f = Outcome.returned := by
        intro j f hj hf
        have := hprev (j + 1) f (Nat.succ_lt_succ hj) (by simpa using hf)
        simpa [Nat.add_assoc, Nat.add_comm 1 j] using this
      obtain ⟨h1, h2⟩ := ih (i + 1) k flow msg hk1 hp1 hprev1
      simp only [rangeFlows, ha]
      exact ⟨h1, by simp [h2]⟩

/-- C10 fails for a handler that panics: over three flows, a per-flow handler that panics
on the flow of index 1 is called twice, not three times, and the panic leaves
`HandleFlows`. -/
theorem FlowToFlowsHandler_stops_at_panic :
    FlowToFlowsHandler panicsAtOne 7 [10, 20, 30]
      = (Outcome.panicked "boom", [⟨7, 0, 10⟩, ⟨7, 1, 20⟩]) ∧
    (FlowToFlowsHandler panicsAtOne 7 [10, 20, 30]).2.length ≠ [10, 20, 30].length := by
  decide

/-- C10 as amended: for every per-flow handler, `FlowToFlowsHandler(h).HandleFlows(header, flows)`
calls `h.HandleFlow` in increasing index order, the call of index `i` being
`HandleFlow(header, i, flows[i])`. When every call returns it returns after exactly
`len(flows)` calls; when the call of index `k` is the first that panics it makes exactly
`k + 1` calls and panics with that message. For an empty slice `h` is not called. -/
theorem FlowToFlowsHandler_calls {Header Flow : Type} (h : FlowHandler Header Flow)
    (header : Header) (flows : List Flow) :
    (∀ (i : Nat) (c : FlowCall Header Flow),
      (FlowToFlowsHandler h header flows).2[i]? = some c →
      ∃ flow, flows[i]? = some flow ∧ c = FlowCall.mk header i flow) ∧
    ((∀ (i : Nat) (flow : Flow), flows[i]? = some flow → h header i flow = Outcome.returned) →
      (FlowToFlowsHandler h header flows).1 = Outcome.returned ∧
      (FlowToFlowsHandler h header flows).2.length = flows.length ∧
      ∀ (i : Nat) (flow : Flow), flows[i]? = some flow →
        (FlowToFlowsHandler h header flows).2[i]? = some (FlowCall.mk header i flow)) ∧
    (∀ (k : Nat) (flow : Flow) (msg : String), flows[k]? = some flow →
      h header k flow = Outcome.panicked msg →
      (∀ (j : Nat) (f : Flow), j < k → flows[j]? = some f → h header j f = Outcome.returned) →
      (FlowToFlowsHandler h header flows).1 = Outcome.panicked msg ∧
      (FlowToFlowsHandler h header flows).2.length = k + 1) ∧
    (FlowToFlowsHandler h header []).2 = [] := by
  refine ⟨?_, ?_, ?_, by simp [FlowToFlowsHandler, rangeFlows]⟩
  · intro i c hc
    simpa using rangeFlows_positions h header flows 0 i c hc
  · intro hret
    obtain ⟨h1, h2, h3⟩ := rangeFlows_returns h header flows 0 (by simpa using hret)
    refine ⟨h1, h2, ?_⟩
    intro i flow hi
    simpa using h3 i flow hi
  · intro k flow msg hk hp hprev
    exact rangeFlows_panics h header flows 0 k flow msg hk (by simpa using hp)
      (by simpa using hprev)

/-- C10 as amended, at three flows and a handler that returns: three calls, with indices
0, 1, 2. -/
theorem FlowToFlowsHandler_calls_witness :
    (∀ i flow, [10, 20, 30][i]? = some flow → quietFlow 7 i flow = Outcome.returned) ∧
    (FlowToFlowsHandler quietFlow 7 [10, 20, 30]).2 = [⟨7, 0, 10⟩, ⟨7, 1, 20⟩, ⟨7, 2, 30⟩] ∧
    (FlowToFlowsHandler quietFlow 7 [10, 20, 30]).2.length = 3 :=
  ⟨fun _ _ _ => rfl, by decide,
    ((FlowToFlowsHandler_calls quietFlow 7 [10, 20, 30]).2.1 (fun _ _ _ => rfl)).2.1⟩

/-- C1: on a buffer whose version field is not 5, the bytes handler built by
`bytesHandlerForNetFlow5Handler` makes no call of `HandleFlows`, whatever package
`netflow5` computes and whatever the user handler does. -/
theorem wrong_version_not_handled {Header Flow : Type} (nf : NetFlow5 Header Flow)
    (h : FlowsHandler Header Flow) (buffer : Buffer)
    (hv : nf.Version (nf.header buffer) ≠ 5) :
    (bytesHandlerForNetFlow5Handler nf h buffer).2 = [] := by
  cases buffer with
  | nil => rfl
  | cons b rest => simp [bytesHandlerForNetFlow5Handler, hv]

/-- C1, at the 24-byte NetFlow v9 header of the specification. -/
theorem wrong_version_not_handled_witness :
    wire.Version (wire.header v9Header) ≠ 5 ∧
    (bytesHandlerForNetFlow5Handler wire quietFlows v9Header).2 = [] :=
  ⟨by decide, wrong_version_not_handled wire quietFlows v9Header (by decide)⟩

/-- C2 fails: a 24-byte datagram of version 5 that declares one flow is received into a
72-byte pool buffer; the received length 24 is less than 24 + 48 × 1, the receive loop
submits the whole buffer, and the bytes handler calls `HandleFlows` on it. -/
theorem short_datagram_reaches_handler :
    (readInto staleBuffer truncatedDatagram).1 < 24 + 48 * wireCount truncatedDatagram ∧
    submittedJobs (receiveLoop readyProcessor
      [⟨staleBuffer, false, ReadResult.datagram truncatedDatagram, true⟩]).effects
      = [(readInto staleBuffer truncatedDatagram).2] ∧
    (bytesHandlerForNetFlow5Handler wire quietFlows (readInto staleBuffer truncatedDatagram).2).2
      = [⟨truncatedDatagram, [List.replicate 48 7]⟩] := by
  decide

theorem readInto_length (buffer payload : Buffer) :
    (readInto buffer payload).2.length = buffer.length := by
  simp only [readInto, List.length_append, List.length_take, List.length_drop]
  omega

/-- C2 as amended: the receive loop submits the whole pool buffer the datagram was read
into, whatever the received length, and on that buffer the bytes handler calls
`HandleFlows` exactly once when the version field is 5 and not at all otherwise. -/
theorem received_datagram_handled_by_version {H Header Flow : Type} (p : Processor H)
    (nf : NetFlow5 Header Flow) (h : FlowsHandler Header Flow)
    (buffer payload : Buffer) (stopRequested signalled : Bool) (rest : List Iteration)
    (hbuf : buffer ≠ []) :
    (submittedJobs (receiveLoop p
      (⟨buffer, stopRequested, ReadResult.datagram payload, signalled⟩ :: rest)).effects).head?
      = some (readInto buffer payload).2 ∧
    (nf.Version (nf.header (readInto buffer payload).2) = 5 →
      (bytesHandlerForNetFlow5Handler nf h (readInto buffer payload).2).2
        = [⟨nf.header (readInto buffer payload).2, nf.FlowArray (readInto buffer payload).2⟩]) ∧
    (nf.Version (nf.header (readInto buffer payload).2) ≠ 5 →
      (bytesHandlerForNetFlow5Handler nf h (readInto buffer payload).2).2 = []) := by
  have hlen := readInto_length buffer payload
  refine ⟨?_, ?_, ?_⟩
  · cases signalled <;> simp [receiveLoop, submittedJobs]
  · intro hv
    cases hj : (readInto buffer payload).2 with
    | nil => rw [hj] at hlen; exact absurd (List.length_eq_zero.mp hlen.symm) hbuf
    | cons b rest1 =>
      rw [hj] at hv
      simp [bytesHandlerForNetFlow5Handler, hv]
  · intro hv
    cases hj : (readInto buffer payload).2 with
    | nil => rfl
    | cons b rest1 =>
      rw [hj] at hv
      simp [bytesHandlerForNetFlow5Handler, hv]

/-- C2 as amended, at the truncated datagram: it is submitted and handled. -/
theorem received_datagram_handled_by_version_witness :
    staleBuffer ≠ [] ∧
    wire.Version (wire.header (readInto staleBuffer truncatedDatagram).2) = 5 ∧
    (bytesHandlerForNetFlow5Handler wire quietFlows (readInto staleBuffer truncatedDatagram).2).2
      = [⟨wire.header (readInto staleBuffer truncatedDatagram).2,
          wire.FlowArray (readInto staleBuffer truncatedDatagram).2⟩] :=
  ⟨by decide, by decide,
    (received_datagram_handled_by_version readyProcessor wire quietFlows staleBuffer
      truncatedDatagram false true [] (by decide)).2.1 (by decide)⟩

/-- C3: `worker.handleBytes(bytes)` calls `HandleBytes(bytes)` once and then `Put(bytes)`
once, whether the byte handler returns or panics; when `Put` returns, the call ends the
way the byte handler ended. -/
theorem handleBytes_calls (H put : Buffer → Outcome) (bytes : Buffer) :
    (handleBytes H put bytes).2 = [PoolCall.HandleBytes bytes, PoolCall.Put bytes] ∧
    (handleBytes H (fun _ => Outcome.returned) bytes).1 = H bytes := by
  constructor
  · unfold handleBytes
    cases hH : H bytes <;> simp [runBody, runDeferred]
  · unfold handleBytes
    cases hH : H bytes <;> simp [runBody, runDeferred]

/-! ## Theorems: the processor -/

theorem setDefaultsConn_numeric {H : Type} (env : Env) (h : H) (p : Processor H)
    (pool : ByteArrayPool) (effects : List Effect) :
    (setDefaultsConn env h p pool effects).proc.Workers = p.Workers ∧
    (setDefaultsConn env h p pool effects).proc.Backlog = p.Backlog ∧
    (setDefaultsConn env h p pool effects).proc.PacketSize = p.PacketSize ∧
    (setDefaultsConn env h p pool effects).proc.ByteArrayPoolSize = p.ByteArrayPoolSize := by
  unfold setDefaultsConn
  cases hc : p.Conn <;> cases hl : env.ListenPacket <;> cases hs : p.stopChan <;> simp [hs]

/-- C6: with a handler set, after `setDefaults` each of `Backlog`, `PacketSize` and `Workers`
is the configured value when that is positive and 100, 2048 and `GOMAXPROCS` otherwise, and
`ByteArrayPoolSize` is the configured value when positive and the resulting `Backlog`
otherwise. -/
theorem setDefaults_numeric {H : Type} (env : Env) (p : Processor H) (hh : p.Handler ≠ none) :
    (setDefaults env p).proc.Backlog = (if 0 < p.Backlog then p.Backlog else 100) ∧
    (setDefaults env p).proc.PacketSize = (if 0 < p.PacketSize then p.PacketSize else 2048) ∧
    (setDefaults env p).proc.Workers = (if 0 < p.Workers then p.Workers else env.GOMAXPROCS) ∧
    (setDefaults env p).proc.ByteArrayPoolSize =
      (if 0 < p.ByteArrayPoolSize then p.ByteArrayPoolSize
       else (setDefaults env p).proc.Backlog) := by
  cases hH : p.Handler with
  | none => exact absurd hH hh
  | some h =>
    have hn := fun q pool effects => setDefaultsConn_numeric env h q pool effects
    simp only [setDefaults, hH, (hn _ _ _).1, (hn _ _ _).2.1, (hn _ _ _).2.2.1,
      (hn _ _ _).2.2.2]
    by_cases hw : p.Workers ≤ 0 <;> by_cases hp : p.PacketSize ≤ 0 <;>
      by_cases hb : p.Backlog ≤ 0 <;> by_cases ha : p.ByteArrayPoolSize ≤ 0 <;>
      simp [hw, hp, hb, ha, not_lt.mpr, not_le.mp]

/-- C6, at a processor with a handler and no option set, on a runtime with 8 processors. -/
theorem setDefaults_numeric_witness :
    bareProcessor.Handler ≠ none ∧
    (setDefaults demoEnv bareProcessor).proc.Backlog = 100 ∧
    (setDefaults demoEnv bareProcessor).proc.PacketSize = 2048 ∧
    (setDefaults demoEnv bareProcessor).proc.Workers = 8 ∧
    (setDefaults demoEnv bareProcessor).proc.ByteArrayPoolSize = 100 := by
  have h := setDefaults_numeric demoEnv bareProcessor (by decide)
  exact ⟨by decide, h.1, h.2.1, h.2.2.1, by rw [h.2.2.2, h.1]; rfl⟩

/-- C8: with a nil `Handler`, `Start` panics in `setDefaults` with "No handler defined"
having made no call at all (no pool, listener, stop channel or dispatcher is made and
`Run` is not called), and it leaves every field of the processor as it was. -/
theorem Start_without_handler {H : Type} (env : Env) (p : Processor H)
    (script : List Iteration) (hh : p.Handler = none) :
    (setDefaults env p).ended = Exit.panicked "No handler defined" ∧
    (Start env p script).ended = Exit.panicked "No handler defined" ∧
    (Start env p script).effects = [] ∧
    (Start env p script).proc = p := by
  simp [Start, setDefaults, hh]

/-- C8, at a processor without a handler whose backlog is 7. -/
theorem Start_without_handler_witness :
    noHandler.Handler = none ∧
    (Start demoEnv noHandler []).ended = Exit.panicked "No handler defined" ∧
    (Start demoEnv noHandler []).effects = [] ∧
    (Start demoEnv noHandler []).proc.Backlog = 7 := by
  have h := Start_without_handler demoEnv noHandler [] rfl
  exact ⟨rfl, h.2.1, h.2.2.1, by rw [h.2.2.2]; rfl⟩

theorem receiveLoop_never_stops {H : Type} (script : List Iteration) :
    ∀ p : Processor H, Effect.Stop ∉ (receiveLoop p script).effects := by
  induction script with
  | nil => intro p; simp [receiveLoop]
  | cons it rest ih =>
    intro p
    cases hr : it.read with
    | error text =>
      by_cases hc : isCloseError (if it.stopRequested then { p with stopChan := none } else p) text
        = true <;> simp [receiveLoop, hr, hc]
    | datagram payload =>
      cases hs : it.signalled
      · simpa [receiveLoop, hr, hs] using ih _
      · simp [receiveLoop, hr, hs]

theorem isCloseError_iff {H : Type} (p : Processor H) (text : String) :
    isCloseError p text = true ↔
      (p.stopChan = none ∧ "use of closed network connection".data <:+: text.data) := by
  unfold isCloseError stringsContains
  by_cases hs : p.stopChan = none <;> simp [hs]

theorem receiveLoop_read_error {H : Type} (buffer : Buffer) (stopRequested signalled : Bool)
    (text : String) (rest : List Iteration) (pre : List Iteration) :
    ∀ p : Processor H,
      (∀ it ∈ pre, (∃ payload, it.read = ReadResult.datagram payload) ∧ it.signalled = false) →
      ((receiveLoop p (pre ++ ⟨buffer, stopRequested, ReadResult.error text, signalled⟩ :: rest)).ended
          = Exit.returned ∨
       (receiveLoop p (pre ++ ⟨buffer, stopRequested, ReadResult.error text, signalled⟩ :: rest)).ended
          = Exit.panicked text) ∧
      ((receiveLoop p (pre ++ ⟨buffer, stopRequested, ReadResult.error text, signalled⟩ :: rest)).ended
          = Exit.returned ↔
        ((p.stopChan = none ∨ (∃ it ∈ pre, it.stopRequested = true) ∨ stopRequested = true) ∧
          "use of closed network connection".data <:+: text.data)) := by
  induction pre with
  | nil =>
    intro p _
    cases stopRequested
    · by_cases hc : isCloseError p text = true
      · have := (isCloseError_iff p text).1 hc
        simp [receiveLoop, hc, this]
      · have hn := mt (isCloseError_iff p text).2 hc
        simp only [not_and] at hn
        simp [receiveLoop, hc]
        intro h1 h2; exact hn h1 h2
    · have hc : isCloseError { p with stopChan := none } text
          = decide ("use of closed network connection".data <:+: text.data) := by
        simp [isCloseError, stringsContains]
      by_cases hsub : "use of closed network connection".data <:+: text.data <;>
        simp [receiveLoop, hc, hsub]
  | cons it pre ih =>
    intro p hpre
    obtain ⟨⟨payload, hread⟩, hsig⟩ := hpre it (by simp)
    have hpre1 : ∀ it1 ∈ pre,
        (∃ payload, it1.read = ReadResult.datagram payload) ∧ it1.signalled = false :=
      fun it1 h1 => hpre it1 (by simp [h1])
    cases hreq : it.stopRequested
    · have := ih p hpre1
      simpa [receiveLoop, hread, hsig, hreq] using this
    · have := ih { p with stopChan := none } hpre1
      simpa [receiveLoop, hread, hsig, hreq] using this

/-- C7: when a read of the receive loop fails after any number of iterations that received
a datagram and saw no stop signal, the loop is left by `break` and `dispatcher.Stop()` is
called if and only if `p.stopChan` is nil by then (it was nil at the start, or `Stop` has
cleared it) and the error text contains "use of closed network connection"; in every other
case `Start` panics with that error and `dispatcher.Stop()` is not called. -/
theorem read_error_policy {H : Type} (p : Processor H) (pre : List Iteration) (buffer : Buffer)
    (stopRequested signalled : Bool) (text : String) (rest : List Iteration)
    (hpre : ∀ it ∈ pre,
      (∃ payload, it.read = ReadResult.datagram payload) ∧ it.signalled = false) :
    ((receiveThenStop p
        (pre ++ ⟨buffer, stopRequested, ReadResult.error text, signalled⟩ :: rest)).ended
        = Exit.returned ↔
      ((p.stopChan = none ∨ (∃ it ∈ pre, it.stopRequested = true) ∨ stopRequested = true) ∧
        "use of closed network connection".data <:+: text.data)) ∧
    (Effect.Stop ∈ (receiveThenStop p
        (pre ++ ⟨buffer, stopRequested, ReadResult.error text, signalled⟩ :: rest)).effects ↔
      ((p.stopChan = none ∨ (∃ it ∈ pre, it.stopRequested = true) ∨ stopRequested = true) ∧
        "use of closed network connection".data <:+: text.data)) ∧
    ((receiveThenStop p
        (pre ++ ⟨buffer, stopRequested, ReadResult.error text, signalled⟩ :: rest)).ended
        = Exit.panicked text ↔
      ¬ ((p.stopChan = none ∨ (∃ it ∈ pre, it.stopRequested = true) ∨ stopRequested = true) ∧
        "use of closed network connection".data <:+: text.data)) := by
  obtain ⟨hor, hiff⟩ := receiveLoop_read_error buffer stopRequested signalled text rest pre p hpre
  have hns := receiveLoop_never_stops
    (pre ++ ⟨buffer, stopRequested, ReadResult.error text, signalled⟩ :: rest) p
  rw [← hiff]
  unfold receiveThenStop
  rcases hor with h | h
  · simp [h]
  · simp [h, hns]

/-- C7, at a processor whose `Stop` was requested during the second read: the read fails
with the text of a closed connection, `Start` returns and `dispatcher.Stop()` is called. -/
theorem read_error_policy_witness :
    (∀ it ∈ [(⟨staleBuffer, false, ReadResult.datagram truncatedDatagram, false⟩ : Iteration)],
      (∃ payload, it.read = ReadResult.datagram payload) ∧ it.signalled = false) ∧
    (receiveThenStop readyProcessor
      ([⟨staleBuffer, false, ReadResult.datagram truncatedDatagram, false⟩] ++
        ⟨staleBuffer, true,
          ReadResult.error "read udp 127.0.0.1:2055: use of closed network connection",
          false⟩ :: [])).ended = Exit.returned :=
  ⟨by simp,
    (read_error_policy readyProcessor
      [⟨staleBuffer, false, ReadResult.datagram truncatedDatagram, false⟩] staleBuffer true false
      "read udp 127.0.0.1:2055: use of closed network connection" [] (by simp)).1.2
      ⟨Or.inr (Or.inr rfl), by decide⟩⟩

/-! ## Theorems: the dispatcher -/

theorem reachable_of_execute (W B : Nat) (actions : List Action) :
    ∀ s s1 : Dispatcher, Reachable W B s → execute s actions = some s1 → Reachable W B s1 := by
  induction actions with
  | nil => intro s s1 hs h; simp [execute] at h; exact h ▸ hs
  | cons a rest ih =>
    intro s s1 hs h
    simp only [execute] at h
    cases hst : step s a with
    | none => simp [hst] at h
    | some s2 =>
      rw [hst] at h
      exact ih s2 s1 (Reachable.step a hs hst) h

theorem shape_init (W B : Nat) : Shape W (NewDispatcher W B) := by
  constructor <;> simp [NewDispatcher, holds]

theorem lt_of_getElem? {α : Type} {l : List α} {i : Nat} {a : α} (h : l[i]? = some a) :
    i < l.length := by
  obtain ⟨hi, _⟩ := List.getElem?_eq_some.1 h
  exact hi

theorem shape_step (W : Nat) (s s1 : Dispatcher) (a : Action) (h : Shape W s)
    (hs : step s a = some s1) : Shape W s1 := by
  obtain ⟨hcap, hlen, hpool, hholds⟩ := h
  cases a <;> simp only [step] at hs <;> (repeat' split at hs) <;> cases hs <;>
    (try have hw := lt_of_getElem? (by assumption)) <;>
    constructor <;> simp_all [holds, Dispatcher.setWorker]
  rename_i w _ _ _ _
  intro v hv
  rcases hv with hv | hv
  · exact hpool v hv
  · rw [hv]; exact hw

theorem shape_reachable (W B : Nat) (s : Dispatcher) (h : Reachable W B s) : Shape W s := by
  induction h with
  | init => exact shape_init W B
  | step a _ hs ih => exact shape_step W _ _ a ih hs

theorem fifo_step (s s1 : Dispatcher) (a : Action) (h : Fifo s) (hs : step s a = some s1) :
    Fifo s1 := by
  unfold Fifo at h ⊢
  cases a <;> simp only [step] at hs <;> (repeat' split at hs) <;> cases hs <;>
    first
    | (simpa [inFlight, Dispatcher.setWorker] using h)
    | (simp_all only [inFlight, Dispatcher.setWorker]; rw [← h]; simp)
    | (simp only [inFlight, Dispatcher.setWorker, List.append_assoc] at h ⊢; rw [← h]; simp_all)

theorem fifo_reachable (W B : Nat) (s : Dispatcher) (h : Reachable W B s) : Fifo s := by
  induction h with
  | init => simp [Fifo, NewDispatcher, inFlight]
  | step a _ hs ih => exact fifo_step _ _ a ih hs

theorem advertised_set (s s1 : Dispatcher) (w : Nat) (wk1 : worker) (h : Advertised s)
    (hws : s1.workers = s.workers.set w wk1)
    (hadv : ∀ v, v ≠ w → adverts s1 v ≤ adverts s v)
    (hall : adverts s1 w ≤ allowance wk1.pc) : Advertised s1 := by
  intro v wk hv
  rw [hws, List.getElem?_set] at hv
  by_cases hvw : w = v
  · subst hvw
    simp only [if_true] at hv
    split at hv
    · cases hv; exact hall
    · cases hv
  · simp only [hvw, if_false] at hv
    exact le_trans (hadv v (Ne.symm hvw)) (h v wk hv)

theorem advertised_same (s s1 : Dispatcher) (h : Advertised s) (hws : s1.workers = s.workers)
    (hadv : ∀ v, adverts s1 v ≤ adverts s v) : Advertised s1 := by
  intro v wk hv
  rw [hws] at hv
  exact le_trans (hadv v) (h v wk hv)

theorem advertised_step (W : Nat) (s s1 : Dispatcher) (a : Action) (hsh : Shape W s)
    (h : Advertised s) (hs : step s a = some s1) : Advertised s1 := by
  obtain ⟨hcap, hlen, hpool, hholds⟩ := hsh
  cases a with
  | Run =>
    simp only [step] at hs
    split at hs
    · rename_i hidle
      cases hs
      have hnil : s.workerPool = [] := by
        rw [hidle] at hlen
        simp only [if_true] at hlen
        rw [hlen] at hpool
        exact List.eq_nil_iff_forall_not_mem.2 (fun w hw => absurd (hpool w hw) (Nat.not_lt_zero w))
      intro v wk hv
      simp [adverts, holds, hnil]
    · cases hs
  | SubmitJob job =>
    simp only [step] at hs
    split at hs
    · cases hs; exact advertised_same s _ h rfl (fun v => le_refl _)
    · cases hs
  | SubmitJobDirect job =>
    simp only [step] at hs
    split at hs
    · rename_i w hpc hq
      cases hs
      exact advertised_same s _ h rfl (fun v => by simp [adverts, holds, hpc])
    · cases hs
  | register w =>
    simp only [step] at hs
    split at hs
    · rename_i n hw
      split at hs
      · cases hs
        have h0 := h w _ hw
        simp only [allowance, adverts, Nat.le_zero, Nat.add_eq_zero] at h0
        refine advertised_set s _ w ⟨WorkerPc.select, n⟩ h rfl ?_ ?_
        · intro v hv
          simp [adverts, Dispatcher.setWorker, List.count_append, List.count_singleton, Ne.symm hv]
        · simp [adverts, Dispatcher.setWorker, List.count_append, h0.1, h0.2, allowance]
      · cases hs
    · cases hs
  | findWorker =>
    simp only [step] at hs
    split at hs
    · rename_i w rest hpc hq
      cases hs
      refine advertised_same s _ h rfl (fun v => ?_)
      simp only [adverts, holds, hpc, hq, List.count_cons]
      by_cases hwv : w = v <;> simp [hwv]
    · cases hs
  | getJob =>
    simp only [step] at hs
    split at hs
    · rename_i w job rest hpc hq
      cases hs
      exact advertised_same s _ h rfl (fun v => by simp [adverts, holds, hpc])
    · cases hs
  | deliver =>
    simp only [step] at hs
    split at hs
    · rename_i w job hpc
      split at hs
      · rename_i n hw
        cases hs
        have h0 := h w _ hw
        simp only [allowance, adverts, holds, hpc, decide_True, if_true] at h0
        refine advertised_set s _ w ⟨WorkerPc.handle job false, n⟩ h rfl ?_ ?_
        · intro v hv
          simp [adverts, Dispatcher.setWorker, holds]
        · simp only [adverts, Dispatcher.setWorker, holds, allowance]
          simp; omega
      · rename_i n hw
        cases hs
        have h0 := h w _ hw
        simp only [allowance, adverts, holds, hpc, decide_True, if_true] at h0
        refine advertised_set s _ w ⟨WorkerPc.handle job true, n⟩ h rfl ?_ ?_
        · intro v hv
          simp [adverts, Dispatcher.setWorker, holds]
        · simp only [adverts, Dispatcher.setWorker, holds, allowance]
          simp; omega
      · cases hs
    · cases hs
  | HandleBytes w =>
    simp only [step] at hs
    split at hs
    · rename_i job last n hw
      cases hs
      have h0 := h w _ hw
      refine advertised_set s _ w ⟨WorkerPc.put job last, n⟩ h rfl (fun v _ => le_refl _) ?_
      cases last <;> simpa [allowance, adverts, Dispatcher.setWorker] using h0
    · cases hs
  | Put w =>
    simp only [step] at hs
    split at hs
    · rename_i job last n hw
      cases hs
      have h0 := h w _ hw
      refine advertised_set s _ w ⟨if last then WorkerPc.exiting else WorkerPc.register, n⟩ h rfl
        (fun v _ => le_refl _) ?_
      cases last <;> simpa [allowance, adverts, Dispatcher.setWorker] using h0
    · cases hs
  | Stop =>
    simp only [step] at hs
    split at hs
    · cases hs; exact advertised_same s _ h rfl (fun v => le_refl _)
    · cases hs
  | stopWorker =>
    simp only [step] at hs
    split at hs
    · rename_i i n hpc
      split at hs
      · split at hs
        · rename_i wk hw
          cases hs
          have h0 := h i _ hw
          exact advertised_set s _ i { wk with stopSenders := wk.stopSenders + 1 } h rfl
            (fun v _ => le_refl _) h0
        · cases hs
      · cases hs
    · cases hs
  | Wait =>
    simp only [step] at hs
    split at hs
    · split at hs
      · cases hs
      · cases hs; exact advertised_same s _ h rfl (fun v => le_refl _)
    · cases hs
  | stopReturns =>
    simp only [step] at hs
    split at hs
    · split at hs
      · cases hs; exact advertised_same s _ h rfl (fun v => le_refl _)
      · cases hs
    · cases hs
  | stopSignal w =>
    simp only [step] at hs
    split at hs
    · rename_i n hw
      cases hs
      have h0 := h w _ hw
      exact advertised_set s _ w ⟨WorkerPc.leftover, n⟩ h rfl (fun v _ => le_refl _) h0
    · cases hs
  | leftoverDefault w =>
    simp only [step] at hs
    split at hs
    · rename_i n hw
      cases hs
      have h0 := h w _ hw
      exact advertised_set s _ w ⟨WorkerPc.exiting, n⟩ h rfl (fun v _ => le_refl _) h0
    · cases hs
  | Done w =>
    simp only [step] at hs
    split at hs
    · rename_i n hw
      cases hs
      have h0 := h w _ hw
      exact advertised_set s _ w ⟨WorkerPc.done, n⟩ h rfl (fun v _ => le_refl _) h0
    · cases hs

theorem advertised_reachable (W B : Nat) (s : Dispatcher) (h : Reachable W B s) : Advertised s := by
  induction h with
  | init => intro v wk hv; simp [NewDispatcher] at hv
  | step a hr hs ih => exact advertised_step W _ _ a (shape_reachable W B _ hr) ih hs

theorem only_worker {l : List worker} {w : Nat} {wk : worker} (hlen : l.length ≤ 1)
    (hw : l[w]? = some wk) : l = [wk] ∧ w = 0 := by
  match l, hlen, hw with
  | [a], _, hw =>
    cases w with
    | zero => simp at hw; simp [hw]
    | succ k => simp at hw

theorem serial_step (W : Nat) (s s1 : Dispatcher) (a : Action) (hW : W ≤ 1) (hsh : Shape W s)
    (h : Serial s) (hs : step s a = some s1) : Serial s1 := by
  obtain ⟨hcap, hlen, hpool, hholds⟩ := hsh
  have hle : s.workers.length ≤ 1 := by rw [hlen]; split <;> omega
  unfold Serial at h ⊢
  cases a <;> simp only [step] at hs <;> (repeat' split at hs) <;> cases hs <;>
    (try have hw12 := only_worker hle (by assumption)) <;>
    simp_all [inHand, Dispatcher.setWorker]

theorem serial_reachable (W B : Nat) (hW : W ≤ 1) (s : Dispatcher) (h : Reachable W B s) :
    Serial s := by
  induction h with
  | init => simp [Serial, NewDispatcher]
  | step a hr hs ih => exact serial_step W _ _ a hW (shape_reachable W B _ hr) ih hs

/-- C4: in every reachable state the jobs the dispatch loop has sent to worker channels,
followed by the job it has taken and not yet sent, followed by the content of the job
queue, are the submitted jobs in the order of their submission; so the dispatched jobs are
a prefix of the submitted ones, and with one worker so are the buffers the handler has
seen. -/
theorem dispatch_is_fifo (W B : Nat) (s : Dispatcher) (h : Reachable W B s) :
    s.dispatched ++ inFlight s.dispatchPc ++ s.jobQueue = s.submitted ∧
    s.dispatched <+: s.submitted ∧
    (W = 1 → s.handled <+: s.submitted) := by
  have hf := fifo_reachable W B s h
  have hp : s.dispatched <+: s.submitted := by
    unfold Fifo at hf
    rw [← hf, List.append_assoc]
    exact List.prefix_append _ _
  refine ⟨hf, hp, fun hW => ?_⟩
  have hser := serial_reachable W B (le_of_eq hW) s h
  unfold Serial at hser
  exact List.IsPrefix.trans (hser ▸ List.prefix_append _ _) hp

/-- C4, at the FIFO scenario of the specification: with one worker the handler sees the
buffers of first bytes 1, 2, 3, 4 in that order. -/
theorem dispatch_is_fifo_witness :
    Reachable 1 8 fifoEnd ∧ fifoEnd.handled = [[1], [2], [3], [4]] ∧
    fifoEnd.handled <+: fifoEnd.submitted :=
  have hr : Reachable 1 8 fifoEnd :=
    reachable_of_execute 1 8 fifoScenario _ _ Reachable.init (by decide)
  ⟨hr, rfl, (dispatch_is_fifo 1 8 fifoEnd hr).2.2 rfl⟩

theorem allowance_le_one (pc : WorkerPc) : allowance pc ≤ 1 := by
  unfold allowance
  split <;> omega

theorem adverts_le_one (W B : Nat) (s : Dispatcher) (h : Reachable W B s) (w : Nat) :
    adverts s w ≤ 1 := by
  have hsh := shape_reachable W B s h
  have hadv := advertised_reachable W B s h
  by_cases hw : w < s.workers.length
  · have hget : s.workers[w]? = some s.workers[w] := List.getElem?_eq_getElem hw
    exact le_trans (hadv w _ hget) (allowance_le_one _)
  · have h1 : s.workerPool.count w = 0 :=
      List.count_eq_zero.2 (fun hmem => hw (hsh.poolLt w hmem))
    have h2 : holds s.dispatchPc w = false := by
      cases hh : holds s.dispatchPc w with
      | false => rfl
      | true => exact absurd (hsh.holdsLt w hh) hw
    simp [adverts, h1, h2]

theorem length_le_of_nodup_lt (l : List Nat) (W : Nat) (hnd : l.Nodup)
    (hlt : ∀ w ∈ l, w < W) : l.length ≤ W := by
  have hsub : l.toFinset ⊆ Finset.range W := by
    intro x hx
    exact Finset.mem_range.2 (hlt x (List.mem_toFinset.1 hx))
  have := Finset.card_le_card hsub
  rwa [List.toFinset_card_of_nodup hnd, Finset.card_range] at this

theorem length_lt_of_nodup_lt (l : List Nat) (W w : Nat) (hnd : l.Nodup)
    (hlt : ∀ v ∈ l, v < W) (hw : w < W) (hnot : w ∉ l) : l.length < W := by
  have hsub : l.toFinset ⊆ (Finset.range W).erase w := by
    intro x hx
    have hx1 := List.mem_toFinset.1 hx
    refine Finset.mem_erase.2 ⟨fun hxw => hnot (hxw ▸ hx1), Finset.mem_range.2 (hlt x hx1)⟩
  have := Finset.card_le_card hsub
  rw [List.toFinset_card_of_nodup hnd, Finset.card_erase_of_mem (Finset.mem_range.2 hw),
    Finset.card_range] at this
  omega

/-- C9: in every reachable state of a dispatcher made with worker count `W`, there are `W`
workers once `Run` has been called and none before, each worker has at most one
advertisement of its channel outstanding (in the registry or held by the dispatch loop),
the registry holds at most `W` entries, and whenever a worker is about to register the
registry has room, so that the send does not block. -/
theorem registry_bounded (W B : Nat) (s : Dispatcher) (h : Reachable W B s) :
    s.workers.length = (if s.dispatchPc = DispatchPc.idle then 0 else W) ∧
    (∀ w, adverts s w ≤ 1) ∧
    s.workerPool.length ≤ W ∧
    (∀ (w n : Nat), s.workers[w]? = some (worker.mk WorkerPc.register n) →
      s.workerPool.length < s.maxWorkers) := by
  have hsh := shape_reachable W B s h
  have hadv := advertised_reachable W B s h
  have hle := adverts_le_one W B s h
  have hlenW : s.workers.length ≤ W := by rw [hsh.len]; split <;> omega
  have hnd : s.workerPool.Nodup :=
    List.nodup_iff_count_le_one.2 (fun w => le_trans (Nat.le_add_right _ _) (hle w))
  have hlt : ∀ w ∈ s.workerPool, w < W := fun w hw => lt_of_lt_of_le (hsh.poolLt w hw) hlenW
  refine ⟨hsh.len, hle, length_le_of_nodup_lt _ W hnd hlt, ?_⟩
  intro w n hw
  rw [hsh.cap]
  have h0 := hadv w _ hw
  simp only [allowance, adverts, Nat.le_zero, Nat.add_eq_zero] at h0
  exact length_lt_of_nodup_lt _ W w hnd hlt (lt_of_lt_of_le (lt_of_getElem? hw) hlenW)
    (List.count_eq_zero.1 h0.1)

/-- C9, at two workers that have both registered: the registry is full and holds two
entries. -/
theorem registry_bounded_witness :
    Reachable 2 0 bothRegistered ∧ bothRegistered.workers.length = 2 ∧
    bothRegistered.workerPool.length ≤ 2 :=
  have hr : Reachable 2 0 bothRegistered :=
    reachable_of_execute 2 0 [Action.Run, Action.register 1, Action.register 0] _ _
      Reachable.init (by decide)
  ⟨hr, rfl, (registry_bounded 2 0 bothRegistered hr).2.2.1⟩

/-- C5 fails on the code: with one worker and a queue of ten, ten jobs are submitted and
`Stop` is called at once; the worker takes the stop signal and ends through the `default`
case, `Stop` returns, and no buffer has been handled or returned to the pool. The ten jobs
are still in the queue, or, when the dispatch loop had already paired the first job with
the worker, nine are in the queue and the first is held by the dispatch loop, which no
worker will ever receive from. -/
theorem stop_returns_with_jobs_unhandled :
    execute (NewDispatcher 1 10) stopAtOnce
      = some (stoppedEarly DispatchPc.findWorker [0]
          [[1], [2], [3], [4], [5], [6], [7], [8], [9], [10]]) ∧
    execute (NewDispatcher 1 10) stopAfterPairing
      = some (stoppedEarly (DispatchPc.send 0 [1]) []
          [[2], [3], [4], [5], [6], [7], [8], [9], [10]]) ∧
    (∀ pc pool queue, (stoppedEarly pc pool queue).stopPc = StopPc.returned ∧
      (stoppedEarly pc pool queue).submittedAtStop.length = 10 ∧
      (stoppedEarly pc pool queue).handled = [] ∧
      (stoppedEarly pc pool queue).returned = []) := by
  refine ⟨by decide, by decide, fun _ _ _ => ⟨rfl, rfl, rfl, rfl⟩⟩

end GoUtils
